import Mathlib

/-!
Verification development for the battery OQC repository: a shallow embedding
of the recognition orchestration and accuracy-scoring core (modelled from the
specification where the backend sources are not part of the repository
snapshot) and of the frontend components under `frontend/src` (battery.ts,
BatteryTable.tsx, the Home page and the batteries/batches pages of
layout.tsx), together with theorems settling the frozen claims about them.
-/

namespace BatteryOQC

/-- Which backend produced a record (spec §3: `recognition_method`
enum {VisionAI, OCR, Unknown}). -/
inductive RecognitionMethod where
  | visionAI
  | ocr
  | unknown
  deriving DecidableEq, Repr

/-- One recognized or expected battery cell: the five canonical fields of the
spec's data model (§3).  Numeric fields are rationals; they are total, so a
constructed record always carries finite numeric values. -/
structure BatteryCellRecord where
  serial_number : String
  model : String
  energy : ℚ
  capacity : ℚ
  voltage : ℚ
  deriving DecidableEq, Repr

/-! ## MatchScorer (spec §4.5)

The scorer's source is not part of the repository snapshot (only the testing
guide and README describe it), so the definitions below are modelled from the
specification's words. -/

/-- Classification of one expected/recognized pair (spec §3 MatchReport). -/
inductive MatchClass where
  | perfect
  | excellent
  | good
  | basic
  | failed
  deriving DecidableEq, Repr

/-- Modelled from the spec: the scorer's configuration.  §4.5 makes the
maximum-tolerable relative difference for numeric fields and the pairing
edit-distance cutoff configuration values, not constants of the scorer. -/
structure ScorerConfig where
  tolerance : ℚ
  cutoff : ℕ
  deriving Repr

/-- String edit distance used for serial-number pairing (spec §4.5),
standard Levenshtein distance with unit costs. -/
def editDistance (s t : String) : ℕ :=
  levenshtein Levenshtein.defaultCost s.data t.data

/-- Modelled from the spec: `serial_number` and `model` score 1.0 on exact
match else 0.0 (§4.5). -/
def fieldScoreText (expected actual : String) : ℚ :=
  if actual = expected then 1 else 0

/-- Modelled from the spec: numeric fields score on a sliding tolerance —
1.0 for exact match, decaying linearly to 0.0 at the configured
maximum-tolerable relative difference (§4.5). -/
def fieldScoreNumeric (tolerance : ℚ) (expected actual : ℚ) : ℚ :=
  if actual = expected then 1
  else max 0 (1 - |actual - expected| / |expected| / tolerance)

/-- Modelled from the spec: default classification thresholds —
overall 1.0 → Perfect, ≥ 0.9 → Excellent, ≥ 0.7 → Good, ≥ 0.6 → Basic,
else Failed (§4.5). -/
def classifyDefault (overall : ℚ) : MatchClass :=
  if overall = 1 then .perfect
  else if 9/10 ≤ overall then .excellent
  else if 7/10 ≤ overall then .good
  else if 6/10 ≤ overall then .basic
  else .failed

/-- Report for one paired expected/recognized record (spec §3 MatchReport:
per-field scores, overall score, classification). -/
structure ScoredPair where
  expected : BatteryCellRecord
  actual : BatteryCellRecord
  serial_score : ℚ
  model_score : ℚ
  energy_score : ℚ
  capacity_score : ℚ
  voltage_score : ℚ
  overall_score : ℚ
  classification : MatchClass
  deriving DecidableEq, Repr

/-- Modelled from the spec: score one pair — five field scores, overall score
the arithmetic mean of the five, classification from the default
thresholds (§4.5). -/
def scorePair (cfg : ScorerConfig) (e a : BatteryCellRecord) : ScoredPair :=
  let s1 := fieldScoreText e.serial_number a.serial_number
  let s2 := fieldScoreText e.model a.model
  let s3 := fieldScoreNumeric cfg.tolerance e.energy a.energy
  let s4 := fieldScoreNumeric cfg.tolerance e.capacity a.capacity
  let s5 := fieldScoreNumeric cfg.tolerance e.voltage a.voltage
  let overall := (s1 + s2 + s3 + s4 + s5) / 5
  { expected := e
    actual := a
    serial_score := s1
    model_score := s2
    energy_score := s3
    capacity_score := s4
    voltage_score := s5
    overall_score := overall
    classification := classifyDefault overall }

/-- First record of the list whose serial number matches exactly, together
with the list with that record removed. -/
def findExact (s : String) :
    List BatteryCellRecord → Option (BatteryCellRecord × List BatteryCellRecord)
  | [] => none
  | a :: rest =>
      if a.serial_number = s then some (a, rest)
      else
        match findExact s rest with
        | some (b, l) => some (b, a :: l)
        | none => none

/-- Record minimizing the serial-number edit distance, among those within the
cutoff; first among ties. -/
def bestWithin (cutoff : ℕ) (s : String) (l : List BatteryCellRecord) :
    Option BatteryCellRecord :=
  l.foldl
    (fun best a =>
      if editDistance s a.serial_number ≤ cutoff then
        match best with
        | none => some a
        | some b =>
            if editDistance s a.serial_number < editDistance s b.serial_number then some a
            else some b
      else best)
    none

/-- Remove the first occurrence of a record from a list. -/
def removeFirstRecord (r : BatteryCellRecord) :
    List BatteryCellRecord → List BatteryCellRecord
  | [] => []
  | a :: rest => if a = r then rest else a :: removeFirstRecord r rest

/-- Modelled from the spec: when no exact serial match exists, pair with the
record minimizing a string-edit distance on serial number, subject to a
maximum-distance cutoff beyond which the expected record is unmatched (§4.5). -/
def findNearest (cutoff : ℕ) (s : String) (l : List BatteryCellRecord) :
    Option (BatteryCellRecord × List BatteryCellRecord) :=
  match bestWithin cutoff s l with
  | none => none
  | some a => some (a, removeFirstRecord a l)

/-- Modelled from the spec: pair each expected record with its best
serial-number match among the still-unused actual records — exact match
preferred, else minimal edit distance within the cutoff, else unmatched
(§4.5).  Returns the matched pairs, the count of unmatched expected records
(missed) and the leftover actual records (spurious). -/
def pairAll (cfg : ScorerConfig) :
    List BatteryCellRecord → List BatteryCellRecord →
      List (BatteryCellRecord × BatteryCellRecord) × ℕ × List BatteryCellRecord
  | [], avail => ([], 0, avail)
  | e :: es, avail =>
      match findExact e.serial_number avail with
      | some (a, rest) =>
          let r := pairAll cfg es rest
          ((e, a) :: r.1, r.2.1, r.2.2)
      | none =>
          match findNearest cfg.cutoff e.serial_number avail with
          | some (a, rest) =>
              let r := pairAll cfg es rest
              ((e, a) :: r.1, r.2.1, r.2.2)
          | none =>
              let r := pairAll cfg es avail
              (r.1, r.2.1 + 1, r.2.2)

/-- Result of `MatchScorer.score` (spec §3 and §4.5): scored pairs plus the
aggregate metrics — missed count, spurious count, count-total correctness. -/
structure MatchReport where
  pairs : List ScoredPair
  missed : ℕ
  spurious : ℕ
  count_correct : Bool
  deriving Repr

/-- Modelled from the spec: `MatchScorer.score(expected, actual)` — pair the
records by serial number, score every pair, and report the aggregate
metrics (§4.5). -/
def score (cfg : ScorerConfig) (expected actual : List BatteryCellRecord) :
    MatchReport :=
  let r := pairAll cfg expected actual
  { pairs := r.1.map fun p => scorePair cfg p.1 p.2
    missed := r.2.1
    spurious := r.2.2.length
    count_correct := expected.length == actual.length }

/-! ## RecognitionOrchestrator (spec §4.1)

The orchestrator's source is not part of the repository snapshot; the
definitions are modelled from the specification, with each backend given as
an oracle from an image to records-or-failure, and with the calls the
orchestrator issues recorded so that the retry discipline is visible. -/

/-- A photograph, identified by its originating-image string (spec §3
`source_image`). -/
abbrev Image := String

/-- The two pluggable recognition backends (spec §2). -/
inductive BackendKind where
  | visionAI
  | ocr
  deriving DecidableEq, Repr

/-- Failure conditions a backend call can raise (spec §7). -/
inductive BackendFailure where
  | backendUnavailable
  | backendError
  deriving DecidableEq, Repr

/-- Whole-run failure surfaced to the caller (spec §7). -/
inductive RunError where
  | noRecognitionBackendAvailable
  deriving DecidableEq, Repr

/-- A record stamped with the backend actually used for it (spec §4.1). -/
structure StampedRecord where
  record : BatteryCellRecord
  recognition_method : RecognitionMethod
  deriving DecidableEq, Repr

/-- Outcome of one processing run: the result handed to the caller, plus the
trace of backend invocations the orchestrator issued. -/
structure RunOutcome where
  result : Except RunError (List StampedRecord)
  calls : List (BackendKind × Image)
  deriving Repr

/-- Stamp every record of a backend's output with the method that
produced it. -/
def stampAll (m : RecognitionMethod) (l : List BatteryCellRecord) :
    List StampedRecord :=
  l.map fun r => ⟨r, m⟩

/-- Modelled from the spec: `RecognitionOrchestrator.process` — prefer
VisionAIBackend when available; on a `BackendUnavailable` or `BackendError`
condition from it, automatically retry once against OCRBackend for the same
input before surfacing failure, the fallback records stamped
`recognition_method = OCR`; if both backends fail, fail with
`NoRecognitionBackendAvailable` (§4.1, §7). -/
def processRun (vision ocr : Image → Except BackendFailure (List BatteryCellRecord))
    (visionAvailable : Bool) (img : Image) : RunOutcome :=
  if visionAvailable then
    match vision img with
    | .ok recs => ⟨.ok (stampAll .visionAI recs), [(.visionAI, img)]⟩
    | .error _ =>
        match ocr img with
        | .ok recs => ⟨.ok (stampAll .ocr recs), [(.visionAI, img), (.ocr, img)]⟩
        | .error _ =>
            ⟨.error .noRecognitionBackendAvailable, [(.visionAI, img), (.ocr, img)]⟩
  else
    match ocr img with
    | .ok recs => ⟨.ok (stampAll .ocr recs), [(.ocr, img)]⟩
    | .error _ => ⟨.error .noRecognitionBackendAvailable, [(.ocr, img)]⟩

/-! ## Backend response validation (spec §4.2, §4.4)

The parsing boundary's source is not part of the repository snapshot; the
definitions are modelled from the specification: a raw cell entry of a
backend response carries each of the five fields as an optional value, and
validation drops any entry with a missing field, counting it as an
extraction failure, instead of emitting a record with null numerics. -/

/-- Modelled from the spec: one candidate cell entry of a backend response,
before validation — any required field may be missing or unparseable, which
is represented by `none` (§4.2, §4.4). -/
structure RawCellEntry where
  serial_number : Option String
  model : Option String
  energy : Option ℚ
  capacity : Option ℚ
  voltage : Option ℚ
  deriving DecidableEq, Repr

/-- Tagged-variant result of validating one raw entry (spec §9:
`Ok(record) | ParseFailure(reason)`). -/
inductive ParsedCell where
  | record (r : BatteryCellRecord)
  | parseFailure
  deriving DecidableEq, Repr

/-- Modelled from the spec: validate one raw cell entry field-by-field; an
entry missing any required field is dropped as a parse failure, all fields
present yield a complete record (§4.2, §4.4). -/
def validateEntry (e : RawCellEntry) : ParsedCell :=
  match e.serial_number, e.model, e.energy, e.capacity, e.voltage with
  | some s, some m, some en, some c, some v => .record ⟨s, m, en, c, v⟩
  | _, _, _, _, _ => .parseFailure

/-- Modelled from the spec: validate a whole response — the fully parsed
records in order, plus the count of dropped entries reported as extraction
failures (§4.2, §7). -/
def extractRecords (l : List RawCellEntry) : List BatteryCellRecord × ℕ :=
  l.foldr
    (fun e acc =>
      match validateEntry e with
      | .record r => (r :: acc.1, acc.2)
      | .parseFailure => (acc.1, acc.2 + 1))
    ([], 0)

/-! ## Frontend data model (frontend/src/types/battery.ts) -/

/-- The `BatteryCell` interface of battery.ts: optional fields of the
interface are `Option`s. -/
structure BatteryCell where
  id : Option ℕ
  serial_number : String
  model : String
  energy : ℚ
  capacity : ℚ
  voltage : ℚ
  image_file : Option String
  recognition_method : Option String
  processed_at : Option String
  created_at : Option String
  updated_at : Option String
  deriving DecidableEq, Repr

/-- The `BatchProcess` interface of battery.ts. -/
structure BatchProcess where
  id : ℕ
  batch_name : String
  total_cells : ℕ
  processed_at : String
  created_at : String
  deriving DecidableEq, Repr

/-- The `claude_ai` block of the `RecognitionStatus` interface
(battery.ts). -/
structure ClaudeAIStatus where
  service_name : String
  available : Bool
  model : Option String
  api_key_configured : Bool
  description : String
  deriving DecidableEq, Repr

/-- The `traditional_ocr` block of the `RecognitionStatus` interface
(battery.ts): it has no configured flag, only a `tesseract_cmd` string. -/
structure TraditionalOCRStatus where
  service_name : String
  available : Bool
  description : String
  tesseract_cmd : String
  deriving DecidableEq, Repr

/-- The `RecognitionStatus` interface of battery.ts. -/
structure RecognitionStatus where
  claude_ai : ClaudeAIStatus
  traditional_ocr : TraditionalOCRStatus
  preferred_method : String
  deriving DecidableEq, Repr

/-- Field names of the `claude_ai` block, as declared in battery.ts. -/
def claudeAIStatusFields : List String :=
  ["service_name", "available", "model", "api_key_configured", "description"]

/-- Field names of the `traditional_ocr` block, as declared in battery.ts. -/
def traditionalOCRStatusFields : List String :=
  ["service_name", "available", "description", "tesseract_cmd"]

/-- Field names of the `RecognitionStatus` interface, as declared in
battery.ts. -/
def recognitionStatusFields : List String :=
  ["claude_ai", "traditional_ocr", "preferred_method"]

/-- The spec's reading of one backend block of the status value: it exposes
`available`, `description` and a boolean configured flag (named either
`configured` or, as battery.ts names it for Claude AI,
`api_key_configured`). -/
def backendExposesSpecTriple (fields : List String) : Bool :=
  fields.contains "available" && fields.contains "description" &&
    (fields.contains "configured" || fields.contains "api_key_configured")

/-- The status-reporting claim as stated: both backend blocks expose the
triple, and the status names the preferred backend. -/
def statusTripleClaimHolds : Bool :=
  backendExposesSpecTriple claudeAIStatusFields &&
    backendExposesSpecTriple traditionalOCRStatusFields &&
    recognitionStatusFields.contains "preferred_method"

/-! ## BatteryTable sorting (frontend/src/components/BatteryTable.tsx)

`sortedBatteries` in the source is `[...batteries].sort(comparator)`: the
comparator returns 0 with no sort configuration, 0 when either compared field
value is undefined, `localeCompare` order for two strings, numeric difference
for two numbers, and 0 otherwise.  The spread copies the array, and
`Array.prototype.sort` is stable, modelled here by a left-fold insertion sort
that keeps the original relative order of elements comparing as 0. -/

/-- A key of the `BatteryCell` interface (`keyof BatteryCell` in
BatteryTable.tsx's `SortConfig`). -/
inductive CellKey where
  | id
  | serial_number
  | model
  | energy
  | capacity
  | voltage
  | image_file
  | recognition_method
  | processed_at
  | created_at
  | updated_at
  deriving DecidableEq, Repr

/-- Sort direction of the `SortConfig` interface (battery.ts). -/
inductive SortDirection where
  | asc
  | desc
  deriving DecidableEq, Repr

/-- The `SortConfig` interface of battery.ts. -/
structure SortConfig where
  key : CellKey
  direction : SortDirection
  deriving DecidableEq, Repr

/-- A JavaScript field value as the comparator sees it: a string, a number,
or undefined. -/
inductive FieldVal where
  | str (s : String)
  | num (q : ℚ)
  | undefinedVal
  deriving DecidableEq, Repr

/-- The field access `battery[key]` of BatteryTable.tsx: optional interface
fields read as undefined when absent. -/
def getField (b : BatteryCell) : CellKey → FieldVal
  | .id =>
      match b.id with
      | some n => .num n
      | none => .undefinedVal
  | .serial_number => .str b.serial_number
  | .model => .str b.model
  | .energy => .num b.energy
  | .capacity => .num b.capacity
  | .voltage => .num b.voltage
  | .image_file =>
      match b.image_file with
      | some s => .str s
      | none => .undefinedVal
  | .recognition_method =>
      match b.recognition_method with
      | some s => .str s
      | none => .undefinedVal
  | .processed_at =>
      match b.processed_at with
      | some s => .str s
      | none => .undefinedVal
  | .created_at =>
      match b.created_at with
      | some s => .str s
      | none => .undefinedVal
  | .updated_at =>
      match b.updated_at with
      | some s => .str s
      | none => .undefinedVal

/-- Model of `String.prototype.localeCompare`: negative, zero or positive by
string order. -/
def compareStringsLocale (s t : String) : ℚ :=
  if s < t then -1 else if t < s then 1 else 0

/-- The comparator passed to `sort` in BatteryTable.tsx: 0 with no
configuration; 0 when either value is undefined; locale order (per
direction) for two strings; difference (per direction) for two numbers;
0 for any other combination. -/
def compareCells (cfg : Option SortConfig) (a b : BatteryCell) : ℚ :=
  match cfg with
  | none => 0
  | some c =>
      match getField a c.key, getField b c.key with
      | .undefinedVal, _ => 0
      | _, .undefinedVal => 0
      | .str x, .str y =>
          match c.direction with
          | .asc => compareStringsLocale x y
          | .desc => compareStringsLocale y x
      | .num x, .num y =>
          match c.direction with
          | .asc => x - y
          | .desc => y - x
      | _, _ => 0

/-- Stable insertion: the new element is placed after every existing element
it does not compare strictly below, as a stable `Array.prototype.sort`
keeps the original order of elements comparing as 0. -/
def insertByCmp (c : BatteryCell → BatteryCell → ℚ) (x : BatteryCell) :
    List BatteryCell → List BatteryCell
  | [] => [x]
  | y :: ys => if c x y < 0 then x :: y :: ys else y :: insertByCmp c x ys

/-- Insert the elements of the first list, left to right, into the
accumulator. -/
def insertAllByCmp (c : BatteryCell → BatteryCell → ℚ) :
    List BatteryCell → List BatteryCell → List BatteryCell
  | [], acc => acc
  | x :: xs, acc => insertAllByCmp c xs (insertByCmp c x acc)

/-- Stable sort by a JavaScript-style comparator. -/
def sortByCmp (c : BatteryCell → BatteryCell → ℚ) (l : List BatteryCell) :
    List BatteryCell :=
  insertAllByCmp c l []

/-- The `sortedBatteries` computation of BatteryTable.tsx:
`[...batteries].sort(comparator)` — the sort runs on the spread copy. -/
def sortedBatteries (cfg : Option SortConfig) (batteries : List BatteryCell) :
    List BatteryCell :=
  sortByCmp (compareCells cfg) batteries

/-- One render of the table body: the row order, paired with the caller's
`batteries` array as it stands after the computation (the in-place sort acts
on the spread copy, so the caller's array is returned as given). -/
def renderBatteryRows (cfg : Option SortConfig) (batteries : List BatteryCell) :
    List BatteryCell × List BatteryCell :=
  (sortedBatteries cfg batteries, batteries)

/-! ## Home page saveBatteries (app Home component)

`saveBatteries` of the Home page: with an empty list it shows an error toast
and returns without calling the API; otherwise it calls the save API and, on
success, clears the battery list; on failure it keeps the list and shows an
error toast. -/

/-- Outcome of the `batteryApi.saveBatteries` call as the Home page sees
it. -/
inductive SaveApiOutcome where
  | success (message : String)
  | failure
  deriving DecidableEq, Repr

/-- The toast the Home page shows for one save attempt. -/
inductive SaveNotice where
  | errorNoData
  | successMessage (m : String)
  | errorSaveFailed
  deriving DecidableEq, Repr

/-- Result of one `saveBatteries` invocation: whether the save API was
called, the battery list state afterwards, and the notification shown. -/
structure SaveResult where
  apiCalled : Bool
  batteriesAfter : List BatteryCell
  notice : SaveNotice
  deriving DecidableEq, Repr

/-- The `saveBatteries` handler of the Home page, as a function of the
current battery list and the API call's outcome. -/
def saveBatteries (batteries : List BatteryCell) (api : SaveApiOutcome) :
    SaveResult :=
  if batteries.length = 0 then
    ⟨false, batteries, .errorNoData⟩
  else
    match api with
    | .success m => ⟨true, [], .successMessage m⟩
    | .failure => ⟨true, batteries, .errorSaveFailed⟩

/-! ## Page statistics (app layout.tsx, BatteriesPage and BatchesPage)

Every displayed average is a conditional expression guarded by
`length > 0`, with the literal 0 in the other branch. -/

/-- The average-energy card of BatteriesPage:
`batteries.length > 0 ? sum / length : '0'`. -/
def avgEnergyDisplay (batteries : List BatteryCell) : ℚ :=
  if 0 < batteries.length then
    (batteries.map fun b => b.energy).sum / batteries.length
  else 0

/-- The average-capacity card of BatteriesPage. -/
def avgCapacityDisplay (batteries : List BatteryCell) : ℚ :=
  if 0 < batteries.length then
    (batteries.map fun b => b.capacity).sum / batteries.length
  else 0

/-- The average-voltage card of BatteriesPage. -/
def avgVoltageDisplay (batteries : List BatteryCell) : ℚ :=
  if 0 < batteries.length then
    (batteries.map fun b => b.voltage).sum / batteries.length
  else 0

/-- The cells-per-batch card of BatchesPage:
`batches.length > 0 ? Math.round(sum / length) : 0`, with `Math.round x`
modelled as `⌊x + 1/2⌋`. -/
def avgCellsPerBatchDisplay (batches : List BatchProcess) : ℤ :=
  if 0 < batches.length then
    ⌊((batches.map fun b => b.total_cells).sum : ℚ) / batches.length + 1/2⌋
  else 0

/-! ## Scorer lemmas -/

theorem fieldScoreText_self (s : String) : fieldScoreText s s = 1 := if_pos rfl

theorem fieldScoreNumeric_self (t q : ℚ) : fieldScoreNumeric t q q = 1 := if_pos rfl

theorem fieldScoreText_nonneg (e a : String) : 0 ≤ fieldScoreText e a := by
  unfold fieldScoreText; split <;> norm_num

theorem fieldScoreText_le_one (e a : String) : fieldScoreText e a ≤ 1 := by
  unfold fieldScoreText; split <;> norm_num

theorem fieldScoreNumeric_nonneg (t e a : ℚ) : 0 ≤ fieldScoreNumeric t e a := by
  unfold fieldScoreNumeric; split
  · norm_num
  · exact le_max_left 0 _

theorem fieldScoreNumeric_le_one (t e a : ℚ) (ht : 0 ≤ t) :
    fieldScoreNumeric t e a ≤ 1 := by
  unfold fieldScoreNumeric; split
  · norm_num
  · have hx : 0 ≤ |a - e| / |e| / t :=
      div_nonneg (div_nonneg (abs_nonneg _) (abs_nonneg _)) ht
    exact max_le (by norm_num) (by linarith)

theorem scorePair_overall_def (cfg : ScorerConfig) (e a : BatteryCellRecord) :
    (scorePair cfg e a).overall_score =
      (fieldScoreText e.serial_number a.serial_number +
        fieldScoreText e.model a.model +
        fieldScoreNumeric cfg.tolerance e.energy a.energy +
        fieldScoreNumeric cfg.tolerance e.capacity a.capacity +
        fieldScoreNumeric cfg.tolerance e.voltage a.voltage) / 5 := rfl

theorem scorePair_class_def (cfg : ScorerConfig) (e a : BatteryCellRecord) :
    (scorePair cfg e a).classification =
      classifyDefault ((scorePair cfg e a).overall_score) := rfl

theorem scorePair_energy_def (cfg : ScorerConfig) (e a : BatteryCellRecord) :
    (scorePair cfg e a).energy_score =
      fieldScoreNumeric cfg.tolerance e.energy a.energy := rfl

theorem classifyDefault_one : classifyDefault 1 = .perfect := if_pos rfl

theorem scorePair_self_overall (cfg : ScorerConfig) (r : BatteryCellRecord) :
    (scorePair cfg r r).overall_score = 1 := by
  rw [scorePair_overall_def, fieldScoreText_self, fieldScoreText_self,
    fieldScoreNumeric_self, fieldScoreNumeric_self, fieldScoreNumeric_self]
  norm_num

theorem scorePair_self_class (cfg : ScorerConfig) (r : BatteryCellRecord) :
    (scorePair cfg r r).classification = .perfect := by
  rw [scorePair_class_def, scorePair_self_overall, classifyDefault_one]

theorem scorePair_overall_le_one (cfg : ScorerConfig) (ht : 0 ≤ cfg.tolerance)
    (e a : BatteryCellRecord) : (scorePair cfg e a).overall_score ≤ 1 := by
  rw [scorePair_overall_def]
  have h1 := fieldScoreText_le_one e.serial_number a.serial_number
  have h2 := fieldScoreText_le_one e.model a.model
  have h3 := fieldScoreNumeric_le_one cfg.tolerance e.energy a.energy ht
  have h4 := fieldScoreNumeric_le_one cfg.tolerance e.capacity a.capacity ht
  have h5 := fieldScoreNumeric_le_one cfg.tolerance e.voltage a.voltage ht
  rw [div_le_one (by norm_num : (0:ℚ) < 5)]
  linarith

theorem pairAll_self (cfg : ScorerConfig) :
    ∀ xs : List BatteryCellRecord,
      pairAll cfg xs xs = (xs.map fun r => (r, r), 0, [])
  | [] => rfl
  | x :: xs => by
      have ih := pairAll_self cfg xs
      simp [pairAll, findExact, ih]

theorem score_self_pairs (cfg : ScorerConfig) (xs : List BatteryCellRecord) :
    (score cfg xs xs).pairs = xs.map fun r => scorePair cfg r r := by
  simp [score, pairAll_self, List.map_map, Function.comp]

theorem mem_score_pairs (cfg : ScorerConfig)
    (expected actual : List BatteryCellRecord) (p : ScoredPair)
    (hp : p ∈ (score cfg expected actual).pairs) :
    ∃ e a, p = scorePair cfg e a := by
  simp only [score, List.mem_map] at hp
  obtain ⟨⟨e, a⟩, _, rfl⟩ := hp
  exact ⟨e, a, rfl⟩

theorem classifyDefault_perfect_iff (o : ℚ) :
    classifyDefault o = .perfect ↔ o = 1 := by
  unfold classifyDefault
  split_ifs with h1 h2 h3 h4 <;> simp [h1]

theorem classifyDefault_excellent_iff (o : ℚ) (ho : o ≤ 1) :
    classifyDefault o = .excellent ↔ 9/10 ≤ o ∧ o < 1 := by
  unfold classifyDefault
  rcases eq_or_lt_of_le ho with rfl | hlt
  · rw [if_pos rfl]
    simp <;> norm_num
  · rw [if_neg (ne_of_lt hlt)]
    split_ifs with h2 h3 h4 <;> simp <;>
      first
        | exact ⟨h2, hlt⟩
        | (intro h5; linarith)
        | linarith

theorem classifyDefault_good_iff (o : ℚ) (ho : o ≤ 1) :
    classifyDefault o = .good ↔ 7/10 ≤ o ∧ o < 9/10 := by
  unfold classifyDefault
  rcases eq_or_lt_of_le ho with rfl | hlt
  · rw [if_pos rfl]
    simp <;> norm_num
  · rw [if_neg (ne_of_lt hlt)]
    split_ifs with h2 h3 h4 <;> simp <;>
      first
        | exact ⟨h3, by linarith⟩
        | (intro h5; linarith)
        | linarith

theorem classifyDefault_basic_iff (o : ℚ) (ho : o ≤ 1) :
    classifyDefault o = .basic ↔ 6/10 ≤ o ∧ o < 7/10 := by
  unfold classifyDefault
  rcases eq_or_lt_of_le ho with rfl | hlt
  · rw [if_pos rfl]
    simp <;> norm_num
  · rw [if_neg (ne_of_lt hlt)]
    split_ifs with h2 h3 h4 <;> simp <;>
      first
        | exact ⟨h4, by linarith⟩
        | (intro h5; linarith)
        | linarith

theorem classifyDefault_failed_iff (o : ℚ) (ho : o ≤ 1) :
    classifyDefault o = .failed ↔ o < 6/10 := by
  unfold classifyDefault
  rcases eq_or_lt_of_le ho with rfl | hlt
  · rw [if_pos rfl]
    simp <;> norm_num
  · rw [if_neg (ne_of_lt hlt)]
    split_ifs with h2 h3 h4 <;> simp <;>
      first
        | linarith
        | (intro h5; linarith)

/-- C5: scoring a set of records against an identical expected set pairs every
record with itself and yields overall score 1.0 and classification Perfect for
every pair. -/
theorem scorer_identical_perfect (cfg : ScorerConfig)
    (xs : List BatteryCellRecord) :
    (score cfg xs xs).pairs = (xs.map fun r => scorePair cfg r r) ∧
      ∀ p ∈ (score cfg xs xs).pairs,
        p.overall_score = 1 ∧ p.classification = .perfect := by
  refine ⟨score_self_pairs cfg xs, ?_⟩
  intro p hp
  rw [score_self_pairs] at hp
  obtain ⟨r, _, rfl⟩ := List.mem_map.mp hp
  exact ⟨scorePair_self_overall cfg r, scorePair_self_class cfg r⟩

/-- C4: for every pair the scorer produces, the overall score is the
arithmetic mean of the five per-field scores. -/
theorem scorer_overall_is_mean (cfg : ScorerConfig)
    (expected actual : List BatteryCellRecord) (p : ScoredPair)
    (hp : p ∈ (score cfg expected actual).pairs) :
    p.overall_score =
      (p.serial_score + p.model_score + p.energy_score + p.capacity_score +
        p.voltage_score) / 5 := by
  obtain ⟨e, a, rfl⟩ := mem_score_pairs cfg expected actual p hp
  rfl

/-- C3: for every pair the scorer produces under a nonnegative tolerance, the
classification is exactly the default-threshold reading of the overall score:
Perfect at 1.0, Excellent on [0.9, 1), Good on [0.7, 0.9), Basic on
[0.6, 0.7), Failed below 0.6. -/
theorem scorer_classification_thresholds (cfg : ScorerConfig)
    (ht : 0 ≤ cfg.tolerance) (expected actual : List BatteryCellRecord)
    (p : ScoredPair) (hp : p ∈ (score cfg expected actual).pairs) :
    (p.classification = .perfect ↔ p.overall_score = 1) ∧
      (p.classification = .excellent ↔ 9/10 ≤ p.overall_score ∧ p.overall_score < 1) ∧
      (p.classification = .good ↔ 7/10 ≤ p.overall_score ∧ p.overall_score < 9/10) ∧
      (p.classification = .basic ↔ 6/10 ≤ p.overall_score ∧ p.overall_score < 7/10) ∧
      (p.classification = .failed ↔ p.overall_score < 6/10) := by
  obtain ⟨e, a, rfl⟩ := mem_score_pairs cfg expected actual p hp
  have ho := scorePair_overall_le_one cfg ht e a
  rw [scorePair_class_def]
  exact ⟨classifyDefault_perfect_iff _, classifyDefault_excellent_iff _ ho,
    classifyDefault_good_iff _ ho, classifyDefault_basic_iff _ ho,
    classifyDefault_failed_iff _ ho⟩

/-! ## The P1 end-to-end scenario (spec §8 and the testing guide) -/

/-- First cell of photograph P1. -/
def recC048026 : BatteryCellRecord :=
  { serial_number := "C048026", model := "6754E4", energy := 36.72,
    capacity := 10.8, voltage := 3.40 }

/-- Second cell of photograph P1, expected values. -/
def recC044817 : BatteryCellRecord :=
  { serial_number := "C044817", model := "6754E4", energy := 36.72,
    capacity := 10.8, voltage := 3.40 }

/-- Second cell of photograph P1 as recognized: energy 36.70 instead of the
expected 36.72. -/
def recC044817Low : BatteryCellRecord :=
  { serial_number := "C044817", model := "6754E4", energy := 36.70,
    capacity := 10.8, voltage := 3.40 }

/-- Third cell of photograph P1. -/
def recC046758 : BatteryCellRecord :=
  { serial_number := "C046758", model := "6754E4", energy := 36.72,
    capacity := 10.8, voltage := 3.40 }

/-- Fourth cell of photograph P1. -/
def recC048463 : BatteryCellRecord :=
  { serial_number := "C048463", model := "6754E4", energy := 36.72,
    capacity := 10.8, voltage := 3.40 }

/-- The expected (ground-truth) set for photograph P1. -/
def expectedP1 : List BatteryCellRecord :=
  [recC048026, recC044817, recC046758, recC048463]

/-- The recognized set for photograph P1: identical to the expected set except
C044817's energy is 36.70 instead of 36.72. -/
def actualP1 : List BatteryCellRecord :=
  [recC048026, recC044817Low, recC046758, recC048463]

theorem scoreP1_pairs (t : ℚ) (cut : ℕ) :
    (score ⟨t, cut⟩ expectedP1 actualP1).pairs =
      [scorePair ⟨t, cut⟩ recC048026 recC048026,
       scorePair ⟨t, cut⟩ recC044817 recC044817Low,
       scorePair ⟨t, cut⟩ recC046758 recC046758,
       scorePair ⟨t, cut⟩ recC048463 recC048463] := rfl

/-- C2: in the P1 scenario, where the recognized set differs from the
expected set only in C044817's energy (36.70 vs 36.72), the scorer — for any
configured maximum-tolerable relative difference of at least 1/918, i.e. at
least twice the pair's relative difference of 1/1836 — gives that pair an
energy score strictly below 1 and an overall score in [0.9, 1), so its
classification is Excellent, while the other three pairs classify Perfect. -/
theorem scorer_scenario_p1_excellent (t : ℚ) (cut : ℕ) (h : 1/918 ≤ t) :
    ((score ⟨t, cut⟩ expectedP1 actualP1).pairs.map fun p => p.classification) =
        [.perfect, .excellent, .perfect, .perfect] ∧
      ∀ p ∈ (score ⟨t, cut⟩ expectedP1 actualP1).pairs,
        p.expected.serial_number = "C044817" →
          p.energy_score < 1 ∧ 9/10 ≤ p.overall_score ∧ p.overall_score < 1 := by
  have ht : 0 < t := lt_of_lt_of_le (by norm_num) h
  have hxpos : 0 < 1/1836/t := by positivity
  have hxle : 1/1836/t ≤ 1/2 := by
    rw [div_le_iff₀ ht]
    linarith
  have hs3 : fieldScoreNumeric t (36.72:ℚ) (36.70:ℚ) = 1 - 1/1836/t := by
    unfold fieldScoreNumeric
    rw [if_neg (by norm_num : ¬(36.70:ℚ) = 36.72)]
    have h1 : |(36.70:ℚ) - 36.72| / |(36.72:ℚ)| = 1/1836 := by
      rw [abs_of_nonpos (by norm_num : (36.70:ℚ) - 36.72 ≤ 0),
        abs_of_nonneg (by norm_num : (0:ℚ) ≤ 36.72)]
      norm_num
    rw [h1]
    exact max_eq_right (by linarith)
  have hp2e : (scorePair ⟨t, cut⟩ recC044817 recC044817Low).energy_score =
      1 - 1/1836/t := by
    rw [scorePair_energy_def]
    exact hs3
  have hp2o : (scorePair ⟨t, cut⟩ recC044817 recC044817Low).overall_score =
      (4 + (1 - 1/1836/t)) / 5 := by
    rw [scorePair_overall_def]
    show (fieldScoreText "C044817" "C044817" + fieldScoreText "6754E4" "6754E4" +
        fieldScoreNumeric t 36.72 36.70 + fieldScoreNumeric t 10.8 10.8 +
        fieldScoreNumeric t 3.40 3.40) / 5 = _
    rw [fieldScoreText_self, fieldScoreText_self, hs3, fieldScoreNumeric_self,
      fieldScoreNumeric_self]
    ring
  have hvlt : (scorePair ⟨t, cut⟩ recC044817 recC044817Low).overall_score < 1 := by
    rw [hp2o]; linarith
  have hvge : 9/10 ≤ (scorePair ⟨t, cut⟩ recC044817 recC044817Low).overall_score := by
    rw [hp2o]; linarith
  have henergy : (scorePair ⟨t, cut⟩ recC044817 recC044817Low).energy_score < 1 := by
    rw [hp2e]; linarith
  have hcls : (scorePair ⟨t, cut⟩ recC044817 recC044817Low).classification =
      .excellent := by
    rw [scorePair_class_def]
    exact (classifyDefault_excellent_iff _ (le_of_lt hvlt)).mpr ⟨hvge, hvlt⟩
  constructor
  · rw [scoreP1_pairs]
    simp only [List.map_cons, List.map_nil]
    rw [scorePair_self_class, scorePair_self_class, scorePair_self_class, hcls]
  · intro p hp
    rw [scoreP1_pairs] at hp
    simp only [List.mem_cons, List.not_mem_nil, or_false] at hp
    rcases hp with rfl | rfl | rfl | rfl
    · intro habs
      have hx : recC048026.serial_number = "C044817" := habs
      exact absurd hx (by decide)
    · intro _
      exact ⟨henergy, hvge, hvlt⟩
    · intro habs
      have hx : recC046758.serial_number = "C044817" := habs
      exact absurd hx (by decide)
    · intro habs
      have hx : recC048463.serial_number = "C044817" := habs
      exact absurd hx (by decide)

/-- C2 check: the hypothesis and conclusion at the concrete tolerance 1/100
and cutoff 2. -/
theorem scorer_scenario_p1_excellent_check :
    (1:ℚ)/918 ≤ 1/100 ∧
      (((score ⟨1/100, 2⟩ expectedP1 actualP1).pairs.map fun p => p.classification) =
          [.perfect, .excellent, .perfect, .perfect] ∧
        ∀ p ∈ (score ⟨1/100, 2⟩ expectedP1 actualP1).pairs,
          p.expected.serial_number = "C044817" →
            p.energy_score < 1 ∧ 9/10 ≤ p.overall_score ∧ p.overall_score < 1) :=
  ⟨by norm_num, scorer_scenario_p1_excellent (1/100) 2 (by norm_num)⟩

/-- Scorer configuration used by the concrete checks: tolerance 1/10,
cutoff 2. -/
def sampleConfig : ScorerConfig := ⟨1/10, 2⟩

/-- C3 check: the hypotheses and conclusion at a concrete configuration and
a concrete pair. -/
theorem scorer_classification_thresholds_check :
    0 ≤ sampleConfig.tolerance ∧
      scorePair sampleConfig recC048026 recC048026 ∈
        (score sampleConfig [recC048026] [recC048026]).pairs ∧
      (((scorePair sampleConfig recC048026 recC048026).classification = .perfect ↔
          (scorePair sampleConfig recC048026 recC048026).overall_score = 1) ∧
        ((scorePair sampleConfig recC048026 recC048026).classification = .excellent ↔
          9/10 ≤ (scorePair sampleConfig recC048026 recC048026).overall_score ∧
            (scorePair sampleConfig recC048026 recC048026).overall_score < 1) ∧
        ((scorePair sampleConfig recC048026 recC048026).classification = .good ↔
          7/10 ≤ (scorePair sampleConfig recC048026 recC048026).overall_score ∧
            (scorePair sampleConfig recC048026 recC048026).overall_score < 9/10) ∧
        ((scorePair sampleConfig recC048026 recC048026).classification = .basic ↔
          6/10 ≤ (scorePair sampleConfig recC048026 recC048026).overall_score ∧
            (scorePair sampleConfig recC048026 recC048026).overall_score < 7/10) ∧
        ((scorePair sampleConfig recC048026 recC048026).classification = .failed ↔
          (scorePair sampleConfig recC048026 recC048026).overall_score < 6/10)) := by
  have hmem : scorePair sampleConfig recC048026 recC048026 ∈
      (score sampleConfig [recC048026] [recC048026]).pairs :=
    List.mem_singleton.mpr rfl
  exact ⟨by norm_num [sampleConfig], hmem,
    scorer_classification_thresholds sampleConfig (by norm_num [sampleConfig])
      [recC048026] [recC048026] _ hmem⟩

/-- C4 check: the hypothesis and conclusion at a concrete configuration and
a concrete pair. -/
theorem scorer_overall_is_mean_check :
    scorePair sampleConfig recC048026 recC048026 ∈
        (score sampleConfig [recC048026] [recC048026]).pairs ∧
      (scorePair sampleConfig recC048026 recC048026).overall_score =
        ((scorePair sampleConfig recC048026 recC048026).serial_score +
          (scorePair sampleConfig recC048026 recC048026).model_score +
          (scorePair sampleConfig recC048026 recC048026).energy_score +
          (scorePair sampleConfig recC048026 recC048026).capacity_score +
          (scorePair sampleConfig recC048026 recC048026).voltage_score) / 5 := by
  have hmem : scorePair sampleConfig recC048026 recC048026 ∈
      (score sampleConfig [recC048026] [recC048026]).pairs :=
    List.mem_singleton.mpr rfl
  exact ⟨hmem,
    scorer_overall_is_mean sampleConfig [recC048026] [recC048026] _ hmem⟩

/-! ## Orchestrator lemmas and claims -/

theorem stampAll_method (m : RecognitionMethod) (l : List BatteryCellRecord) :
    ∀ s ∈ stampAll m l, s.recognition_method = m := by
  intro s hs
  obtain ⟨r, _, rfl⟩ := List.mem_map.mp hs
  rfl

/-- C1: when VisionAIBackend raises a BackendUnavailable or BackendError
condition, the orchestrator's call trace shows exactly one retry against
OCRBackend on the same input; when that retry succeeds the run returns a
plain success whose records are all stamped recognition_method = OCR (the
fallback is invisible to the caller), and only if the retry also fails is
NoRecognitionBackendAvailable surfaced. -/
theorem orchestrator_fallback_retries_ocr
    (vision ocr : Image → Except BackendFailure (List BatteryCellRecord))
    (img : Image) (e : BackendFailure) (hv : vision img = .error e) :
    (processRun vision ocr true img).calls = [(.visionAI, img), (.ocr, img)] ∧
      (∀ recs, ocr img = .ok recs →
        (processRun vision ocr true img).result = .ok (stampAll .ocr recs) ∧
          ∀ s ∈ stampAll .ocr recs, s.recognition_method = .ocr) ∧
      (∀ e2, ocr img = .error e2 →
        (processRun vision ocr true img).result =
          .error .noRecognitionBackendAvailable) := by
  have hred : processRun vision ocr true img =
      match ocr img with
      | .ok recs => ⟨.ok (stampAll .ocr recs), [(.visionAI, img), (.ocr, img)]⟩
      | .error _ =>
          ⟨.error .noRecognitionBackendAvailable, [(.visionAI, img), (.ocr, img)]⟩ := by
    unfold processRun
    rw [if_pos rfl, hv]
  refine ⟨?_, ?_, ?_⟩
  · rw [hred]
    cases ocr img <;> rfl
  · intro recs hocr
    rw [hred, hocr]
    exact ⟨rfl, stampAll_method .ocr recs⟩
  · intro e2 hocr
    rw [hred, hocr]

/-- A vision backend that always raises BackendError, for the concrete
check. -/
def visionFailing : Image → Except BackendFailure (List BatteryCellRecord) :=
  fun _ => .error .backendError

/-- An OCR backend that always recognizes one record, for the concrete
check. -/
def ocrSucceeding : Image → Except BackendFailure (List BatteryCellRecord) :=
  fun _ => .ok [recC048026]

/-- C1 check: the hypothesis and conclusion at a concrete failing vision
backend, succeeding OCR backend and image. -/
theorem orchestrator_fallback_retries_ocr_check :
    visionFailing "PXL_20250724_010217469.jpg" = .error .backendError ∧
      ((processRun visionFailing ocrSucceeding true
            "PXL_20250724_010217469.jpg").calls =
          [(.visionAI, "PXL_20250724_010217469.jpg"),
            (.ocr, "PXL_20250724_010217469.jpg")] ∧
        (∀ recs, ocrSucceeding "PXL_20250724_010217469.jpg" = .ok recs →
          (processRun visionFailing ocrSucceeding true
              "PXL_20250724_010217469.jpg").result = .ok (stampAll .ocr recs) ∧
            ∀ s ∈ stampAll .ocr recs, s.recognition_method = .ocr) ∧
        ∀ e2, ocrSucceeding "PXL_20250724_010217469.jpg" = .error e2 →
          (processRun visionFailing ocrSucceeding true
              "PXL_20250724_010217469.jpg").result =
            .error .noRecognitionBackendAvailable) :=
  ⟨rfl, orchestrator_fallback_retries_ocr visionFailing ocrSucceeding
    "PXL_20250724_010217469.jpg" .backendError rfl⟩

/-! ## Validation claims -/

theorem extractRecords_cons (e : RawCellEntry) (rest : List RawCellEntry) :
    extractRecords (e :: rest) =
      match validateEntry e with
      | .record r => (r :: (extractRecords rest).1, (extractRecords rest).2)
      | .parseFailure => ((extractRecords rest).1, (extractRecords rest).2 + 1) := by
  unfold extractRecords
  simp only [List.foldr]

theorem extractRecords_length :
    ∀ l : List RawCellEntry,
      (extractRecords l).1.length + (extractRecords l).2 = l.length
  | [] => rfl
  | e :: rest => by
      have ih := extractRecords_length rest
      rw [extractRecords_cons]
      cases h : validateEntry e <;> simp <;> omega

/-- C7: a validated entry is emitted as a record exactly when every required
field is present, each emitted field value coming from the entry itself (so a
record with a missing numeric field is never emitted); an entry missing any
field is reported as a parse failure, and every entry of a response is either
emitted or counted as a failure. -/
theorem validate_entry_total_numerics (e : RawCellEntry)
    (l : List RawCellEntry) :
    (∀ r, validateEntry e = .record r →
        e.serial_number = some r.serial_number ∧ e.model = some r.model ∧
          e.energy = some r.energy ∧ e.capacity = some r.capacity ∧
          e.voltage = some r.voltage) ∧
      (validateEntry e = .parseFailure ↔
        e.serial_number = none ∨ e.model = none ∨ e.energy = none ∨
          e.capacity = none ∨ e.voltage = none) ∧
      (extractRecords l).1.length + (extractRecords l).2 = l.length := by
  obtain ⟨s, m, en, c, v⟩ := e
  refine ⟨?_, ?_, extractRecords_length l⟩ <;>
    cases s <;> cases m <;> cases en <;> cases c <;> cases v <;>
      simp [validateEntry]

/-! ## Status-reporting claim -/

/-- C6 counterexample: the claim that both backend blocks of
RecognitionStatus expose an `{available, configured, description}` triple is
false, because the `traditional_ocr` block of battery.ts has no configured
flag at all. -/
theorem recognition_status_missing_configured :
    statusTripleClaimHolds = false := by decide

/-- C6 (amended): the RecognitionStatus value reports, for the Claude AI
backend, available, api_key_configured and description, and for the
traditional OCR backend only available and description — no configured flag
of either spelling — together with the preferred method. -/
theorem recognition_status_fields_amended :
    backendExposesSpecTriple claudeAIStatusFields = true ∧
      claudeAIStatusFields.contains "available" = true ∧
      claudeAIStatusFields.contains "api_key_configured" = true ∧
      claudeAIStatusFields.contains "description" = true ∧
      traditionalOCRStatusFields.contains "available" = true ∧
      traditionalOCRStatusFields.contains "description" = true ∧
      traditionalOCRStatusFields.contains "configured" = false ∧
      traditionalOCRStatusFields.contains "api_key_configured" = false ∧
      recognitionStatusFields.contains "preferred_method" = true := by decide

/-! ## BatteryTable sorting claims -/

theorem insertByCmp_perm (c : BatteryCell → BatteryCell → ℚ) (x : BatteryCell) :
    ∀ l : List BatteryCell, List.Perm (insertByCmp c x l) (x :: l)
  | [] => List.Perm.refl _
  | y :: ys => by
      unfold insertByCmp
      split
      · exact List.Perm.refl _
      · exact ((insertByCmp_perm c x ys).cons y).trans (List.Perm.swap x y ys)

theorem insertAllByCmp_perm (c : BatteryCell → BatteryCell → ℚ) :
    ∀ l acc : List BatteryCell, List.Perm (insertAllByCmp c l acc) (l ++ acc)
  | [], acc => List.Perm.refl _
  | x :: xs, acc =>
      (insertAllByCmp_perm c xs (insertByCmp c x acc)).trans
        ((((insertByCmp_perm c x acc).append_left xs)).trans List.perm_middle)

theorem sortByCmp_perm (c : BatteryCell → BatteryCell → ℚ)
    (l : List BatteryCell) : List.Perm (sortByCmp c l) l := by
  have h := insertAllByCmp_perm c l []
  simpa [sortByCmp] using h

theorem insertByCmp_of_zero (c : BatteryCell → BatteryCell → ℚ) (x : BatteryCell)
    (h : ∀ a b, c a b = 0) :
    ∀ l : List BatteryCell, insertByCmp c x l = l ++ [x]
  | [] => rfl
  | y :: ys => by
      unfold insertByCmp
      rw [if_neg (by rw [h x y]; norm_num), insertByCmp_of_zero c x h ys]
      rfl

theorem insertAllByCmp_of_zero (c : BatteryCell → BatteryCell → ℚ)
    (h : ∀ a b, c a b = 0) :
    ∀ l acc : List BatteryCell, insertAllByCmp c l acc = acc ++ l
  | [], acc => by simp [insertAllByCmp]
  | x :: xs, acc => by
      show insertAllByCmp c xs (insertByCmp c x acc) = acc ++ x :: xs
      rw [insertAllByCmp_of_zero c h xs, insertByCmp_of_zero c x h acc,
        List.append_assoc]
      rfl

theorem compareCells_none (a b : BatteryCell) : compareCells none a b = 0 := rfl

theorem sortedBatteries_none (l : List BatteryCell) :
    sortedBatteries none l = l := by
  have h := insertAllByCmp_of_zero (compareCells none)
    (fun a b => compareCells_none a b) l []
  simpa [sortedBatteries, sortByCmp] using h

/-- C8: the table's row order is computed on a copy — after the computation
the caller's batteries array is exactly the list passed in, and the rendered
rows are a permutation of it (no element is changed); the comparator returns
0 when there is no sort configuration or when either compared field value is
undefined; and with no sort configuration the rendered order is exactly the
input order. -/
theorem battery_table_sort_pure (cfg : Option SortConfig)
    (l : List BatteryCell) :
    (renderBatteryRows cfg l).2 = l ∧
      List.Perm (renderBatteryRows cfg l).1 l ∧
      (∀ a b, compareCells none a b = 0) ∧
      (∀ c : SortConfig, ∀ a b,
        getField a c.key = .undefinedVal ∨ getField b c.key = .undefinedVal →
          compareCells (some c) a b = 0) ∧
      renderBatteryRows none l = (l, l) := by
  refine ⟨rfl, sortByCmp_perm _ l, fun a b => rfl, ?_, ?_⟩
  · intro c a b h
    rcases h with h | h
    · simp [compareCells, h]
    · cases hA : getField a c.key <;> simp [compareCells, h, hA]
  · rw [renderBatteryRows, sortedBatteries_none]

/-! ## Home page save claim -/

/-- C9: invoked with an empty battery list, saveBatteries never calls the
save API, leaves the list unchanged and only shows the no-data error
notification; with a non-empty list the API is called, and on a successful
response the battery list is cleared. -/
theorem save_batteries_empty_guard (batteries : List BatteryCell)
    (api : SaveApiOutcome) :
    (batteries = [] →
        saveBatteries batteries api =
          ⟨false, batteries, .errorNoData⟩) ∧
      (batteries ≠ [] → (saveBatteries batteries api).apiCalled = true) ∧
      (∀ m, batteries ≠ [] → api = .success m →
        (saveBatteries batteries api).batteriesAfter = []) := by
  have hlen : batteries ≠ [] → ¬batteries.length = 0 := by
    intro h hc
    exact h (List.length_eq_zero.mp hc)
  refine ⟨?_, ?_, ?_⟩
  · intro h
    subst h
    rfl
  · intro h
    unfold saveBatteries
    rw [if_neg (hlen h)]
    cases api <;> rfl
  · intro m h ha
    subst ha
    unfold saveBatteries
    rw [if_neg (hlen h)]

/-! ## Page statistics claim -/

/-- C10: on the batteries and batches pages every displayed average is
guarded by a non-emptiness test — an empty list displays the literal 0
without computing any quotient, and a non-empty list divides by its length,
which is then nonzero, so no division by zero occurs. -/
theorem page_average_guards (bl : List BatteryCell) (bt : List BatchProcess) :
    (bl = [] →
        avgEnergyDisplay bl = 0 ∧ avgCapacityDisplay bl = 0 ∧
          avgVoltageDisplay bl = 0) ∧
      (bl ≠ [] →
        ((bl.length : ℚ) ≠ 0 ∧
          avgEnergyDisplay bl = (bl.map fun b => b.energy).sum / bl.length ∧
          avgCapacityDisplay bl = (bl.map fun b => b.capacity).sum / bl.length ∧
          avgVoltageDisplay bl = (bl.map fun b => b.voltage).sum / bl.length)) ∧
      (bt = [] → avgCellsPerBatchDisplay bt = 0) ∧
      (bt ≠ [] →
        ((bt.length : ℚ) ≠ 0 ∧
          avgCellsPerBatchDisplay bt =
            ⌊((bt.map fun b => b.total_cells).sum : ℚ) / bt.length + 1/2⌋)) := by
  refine ⟨?_, ?_, ?_, ?_⟩
  · intro h
    subst h
    exact ⟨rfl, rfl, rfl⟩
  · intro h
    have hpos : 0 < bl.length := List.length_pos.mpr h
    refine ⟨by exact_mod_cast Nat.pos_iff_ne_zero.mp hpos, ?_, ?_, ?_⟩ <;>
      simp [avgEnergyDisplay, avgCapacityDisplay, avgVoltageDisplay, hpos]
  · intro h
    subst h
    rfl
  · intro h
    have hpos : 0 < bt.length := List.length_pos.mpr h
    refine ⟨by exact_mod_cast Nat.pos_iff_ne_zero.mp hpos, ?_⟩
    simp [avgCellsPerBatchDisplay, hpos]

end BatteryOQC
